import Mathlib

/-!
Verification of the static capability-holding checker specified for the
Linux kernel's compiler-based capability analysis
(include/linux/compiler-capability-analysis.h, lib/test_capability-analysis.c,
Documentation/dev-tools/capability-analysis.rst).

The repository's source consists of the annotation surface (attribute
definitions, helper expansion rules, and compile-only tests); the checker
consuming those annotations is specified in the repository's documentation.
Definitions below that embed the checker itself are therefore modelled from
the spec, as indicated in their doc comments; the expansion-rule definitions
are translated directly from the header sources.
-/

/-- Access mode of a capability: `Exclusive` (write-like) or `Shared`
(read-like).  Modelled from the spec: "Access Mode: Exclusive or Shared". -/
inductive Mode
  | exclusive
  | shared
deriving DecidableEq, Repr

/-- Held-state of a capability instance at a program point.  Modelled from
the spec: "held-state ∈ {NotHeld, HeldShared, HeldExclusive, Unknown}". -/
inductive HeldState
  | notHeld
  | heldShared
  | heldExclusive
  | unknown
deriving DecidableEq, Repr

/-- A capability instance is identified by an interned id (the spec's
"interned identifiers ... rather than raw text").  Modelled from the spec. -/
abbrev InstanceRef := Nat

/-- Capability Environment: a mapping from capability instance to held-state.
Modelled from the spec: "a mapping from capability instance → held-state". -/
def Env : Type := InstanceRef → HeldState

/-- Pointwise update of an environment. -/
def setEnv (env : Env) (i : InstanceRef) (s : HeldState) : Env :=
  fun j => if j = i then s else env j

/-- Binary merge of two environments: per instance, keep the state when both
agree, otherwise `unknown`.  Modelled from the spec: "per-instance, if all
predecessor states agree, propagate that state; otherwise set Unknown". -/
def join2 (e1 e2 : Env) : Env :=
  fun i => if e1 i = e2 i then e1 i else .unknown

/-- Merge over an ordered sequence of predecessor environments.  Modelled
from the spec: "join(envs: ordered sequence of Environment) -> Environment".
The join of an empty sequence is the everywhere-`unknown` environment. -/
def join : List Env → Env
  | [] => fun _ => .unknown
  | e :: es => es.foldl join2 e

/-- State `s` provides at least mode `m`: an exclusive holding subsumes a
shared requirement.  Modelled from the spec: "check env contains at least
that mode (Exclusive state satisfies a Shared requirement)". -/
def satisfies : HeldState → Mode → Bool
  | .heldExclusive, _ => true
  | .heldShared, .shared => true
  | _, _ => false

/-- Concrete everywhere-not-held environment, used in evaluation
witnesses. -/
def envAllNotHeld : Env := fun _ => .notHeld

/-- Concrete everywhere-exclusively-held environment, used in evaluation
witnesses. -/
def envAllExclusive : Env := fun _ => .heldExclusive

/-- Kind of a reported violation.  Modelled from the spec: "violation kind
(NotHeld, StillHeld, Excluded, ContractMismatch)". -/
inductive ViolationKind
  | notHeld
  | stillHeld
  | excluded
  | contractMismatch
deriving DecidableEq, Repr

/-- A diagnostic produced by the analyzer: location, capability instance
and violation kind.  Modelled from the spec: "Produces, per violation:
location, capability instance, violation kind". -/
structure Violation where
  loc : Nat
  cap : InstanceRef
  kind : ViolationKind
deriving DecidableEq, Repr

/-- Function Contract.  Modelled from the spec: "requires (capability, mode)
pairs that must hold in every calling environment reaching the call;
excludes (capability) that must NOT hold; acquires/releases (capability,
mode) pairs describing net effect on the caller's environment". -/
structure FunctionContract where
  requires : List (InstanceRef × Mode)
  excludes : List InstanceRef
  acquires : List (InstanceRef × Mode)
  releases : List (InstanceRef × Mode)
deriving DecidableEq, Repr

/-- The empty contract of an undeclared function.  Modelled from the spec:
"contract_for(function) -> FunctionContract (empty contract if
undeclared)". -/
def emptyContract : FunctionContract :=
  { requires := [], excludes := [], acquires := [], releases := [] }

/-- State granted by acquiring with a given mode. -/
def acqState : Mode → HeldState
  | .exclusive => .heldExclusive
  | .shared => .heldShared

/-- Check of a contract's preconditions: each required (instance, mode) pair
is checked against the environment (exclusive satisfies shared), producing a
`NotHeld` violation on failure; each excluded instance must be `NotHeld`,
producing a held-capability violation of kind `Excluded` on failure.
Modelled from the spec: "apply_requires(env, contract): for each (instance,
mode) in contract.requires, check env contains at least that mode ...; on
failure, produce a NotHeld violation; for each excludes, fail if state ≠
NotHeld, producing a Held violation". -/
def applyRequires (env : Env) (c : FunctionContract) (loc : Nat) :
    List Violation :=
  (c.requires.filterMap fun p =>
    if satisfies (env p.1) p.2 then none
    else some ⟨loc, p.1, .notHeld⟩) ++
  (c.excludes.filterMap fun i =>
    if env i = .notHeld then none
    else some ⟨loc, i, .excluded⟩)

/-- Apply a list of releases to an environment: each released instance is set
to `NotHeld`. -/
def applyReleases (env : Env) (rels : List (InstanceRef × Mode)) : Env :=
  rels.foldl (fun e p => setEnv e p.1 .notHeld) env

/-- Apply a list of acquires to an environment: each acquired instance is set
to the state granted by its mode. -/
def applyAcquires (env : Env) (acqs : List (InstanceRef × Mode)) : Env :=
  acqs.foldl (fun e p => setEnv e p.1 (acqState p.2)) env

/-- Effect of a call on the caller's environment.  Modelled from the spec:
"apply_effects(env, contract) -> Environment: remove releases, add acquires,
per declared mode". -/
def applyEffects (env : Env) (c : FunctionContract) : Env :=
  applyAcquires (applyReleases env c.releases) c.acquires

/-- A contract consisting of a single shared-mode requirement on `i`. -/
def reqSharedOn (i : InstanceRef) : FunctionContract :=
  { requires := [(i, .shared)], excludes := [], acquires := [], releases := [] }

/-- A contract consisting of a single excluded instance `i`. -/
def excludesOn (i : InstanceRef) : FunctionContract :=
  { requires := [], excludes := [i], acquires := [], releases := [] }

/-- Statements of a function body, as classified by the spec's input
boundary: "statements classified as: plain, call-with-contract,
guarded-member-access, branch-on-boolean (optionally correlated with a prior
call's return), loop-backedge", plus the no-op acquire/release/assert calls
and the suppressed (unsafe) region.  Modelled from the spec. -/
inductive Stmt
  | skip
  | seq (s1 s2 : Stmt)
  | acquire (i : InstanceRef) (m : Mode)
  | release (i : InstanceRef) (m : Mode)
  | access (g : InstanceRef) (isWrite : Bool)
  | assertCap (i : InstanceRef) (m : Mode)
  | callC (c : FunctionContract)
  | iteJoin (s1 s2 : Stmt)
  | ifTry (i : InstanceRef) (m : Mode) (sThen sElse : Stmt)
  | unsafeRegion (body : Stmt)

/-- Result of analyzing a statement: outgoing environment, violations in
program order, and the next statement location. -/
structure AResult where
  env : Env
  viols : List Violation
  next : Nat

/-- Permission check of a guarded-member access in state `s`: a write
requires the guard held exclusively, a read requires it held at least
shared.  Modelled from the spec: "Read operations on the data require shared
access, while write operations require exclusive access". -/
def accessOk (s : HeldState) (isWrite : Bool) : Bool :=
  satisfies s (if isWrite then .exclusive else .shared)

/-- Forward walk of the intraprocedural analyzer over a statement, from the
current local environment.  Modelled from the spec (section 4.4):
guarded-member accesses are checked against the current local environment
immediately; calls trigger `apply_requires` then `apply_effects`; a literal
acquire no-op call is effect-only; releasing an instance not held is a
`NotHeld` violation; an assertion directly sets the local environment to held
without requiring prior static proof; a branch on a try-acquire's
success-correlated return splits the environment, applying the acquire
effect to the true arm only, and the arms are merged with `join2` afterward;
a suppressed region is a pass-through: nothing inside is checked and no
environment updates occur. -/
def analyze : Stmt → Nat → Env → AResult
  | .skip, loc, env => ⟨env, [], loc⟩
  | .seq s1 s2, loc, env =>
      let r1 := analyze s1 loc env
      let r2 := analyze s2 r1.next r1.env
      ⟨r2.env, r1.viols ++ r2.viols, r2.next⟩
  | .acquire i m, loc, env => ⟨setEnv env i (acqState m), [], loc + 1⟩
  | .release i m, loc, env =>
      ⟨setEnv env i .notHeld,
       if satisfies (env i) m then [] else [⟨loc, i, .notHeld⟩],
       loc + 1⟩
  | .access g w, loc, env =>
      ⟨env, if accessOk (env g) w then [] else [⟨loc, g, .notHeld⟩], loc + 1⟩
  | .assertCap i m, loc, env => ⟨setEnv env i (acqState m), [], loc + 1⟩
  | .callC c, loc, env => ⟨applyEffects env c, applyRequires env c loc, loc + 1⟩
  | .iteJoin s1 s2, loc, env =>
      let r1 := analyze s1 (loc + 1) env
      let r2 := analyze s2 r1.next env
      ⟨join2 r1.env r2.env, r1.viols ++ r2.viols, r2.next⟩
  | .ifTry i m sThen sElse, loc, env =>
      let rT := analyze sThen (loc + 1) (setEnv env i (acqState m))
      let rE := analyze sElse rT.next env
      ⟨join2 rT.env rE.env, rT.viols ++ rE.viols, rE.next⟩
  | .unsafeRegion _, loc, env => ⟨env, [], loc + 1⟩

/-- Capability instances mentioned by a statement. -/
def instsOf : Stmt → List InstanceRef
  | .skip => []
  | .seq s1 s2 => instsOf s1 ++ instsOf s2
  | .acquire i _ => [i]
  | .release i _ => [i]
  | .access g _ => [g]
  | .assertCap i _ => [i]
  | .callC c =>
      c.requires.map Prod.fst ++ c.excludes ++
      c.acquires.map Prod.fst ++ c.releases.map Prod.fst
  | .iteJoin s1 s2 => instsOf s1 ++ instsOf s2
  | .ifTry i _ sThen sElse => i :: (instsOf sThen ++ instsOf sElse)
  | .unsafeRegion body => instsOf body

/-- Capability instances mentioned by a contract. -/
def contractInsts (c : FunctionContract) : List InstanceRef :=
  c.requires.map Prod.fst ++ c.excludes ++
  c.acquires.map Prod.fst ++ c.releases.map Prod.fst

/-- Entry environment of a function under its own contract: required
instances are held at their required mode, everything else `NotHeld`.
Modelled from the spec. -/
def entryEnv (c : FunctionContract) : Env :=
  applyAcquires (fun _ => .notHeld) c.requires

/-- The exit state the function's declared net contract promises for each
instance: the entry environment with the declared releases removed and the
declared acquires added.  Modelled from the spec: "the actual final
environment at that edge is compared against the function's own declared
releases/acquires net contract". -/
def expectedExit (c : FunctionContract) : Env :=
  applyEffects (entryEnv c) c

/-- Function-boundary check at an exit edge.  Modelled from the spec: "any
discrepancy (capability still held that should have been released by exit,
or declared-acquired capability not actually held) is a function-boundary
violation". -/
def checkExit (univ : List InstanceRef) (loc : Nat) (env : Env)
    (c : FunctionContract) : List Violation :=
  univ.filterMap fun i =>
    if env i = expectedExit c i then none
    else if expectedExit c i = .notHeld then some ⟨loc, i, .stillHeld⟩
    else some ⟨loc, i, .contractMismatch⟩

/-- Analysis of a whole function body against the function's own contract:
forward walk from the contract's entry environment, then the
function-boundary check over every instance the body or contract mentions.
Modelled from the spec. -/
def analyzeFunction (c : FunctionContract) (body : Stmt) : List Violation :=
  let r := analyze body 0 (entryEnv c)
  r.viols ++ checkExit ((instsOf body ++ contractInsts c).dedup) r.next r.env c

/-- Body of the guarded try-lock pattern from `test_##class##_trylock` in
lib/test_capability-analysis.c:
`if (type_trylock(&d->lock)) { op(d->counter); type_unlock(&d->lock); }`. -/
def progGuardedInsideTry : Stmt :=
  .ifTry 0 .exclusive (.seq (.access 0 true) (.release 0 .exclusive)) .skip

/-- The same pattern with the guarded access moved outside the `if`. -/
def progGuardedOutsideTry : Stmt :=
  .seq (.ifTry 0 .exclusive (.release 0 .exclusive) .skip) (.access 0 true)

/-- A statement consisting only of accesses to members guarded by `L`
(sequenced arbitrarily), the shape of the code between the acquire and the
release in the balanced-lock pattern of `test_##class` in
lib/test_capability-analysis.c. -/
inductive GuardedAccessesOnly (L : InstanceRef) : Stmt → Prop
  | skip : GuardedAccessesOnly L .skip
  | access (w : Bool) : GuardedAccessesOnly L (.access L w)
  | seq {s1 s2 : Stmt} : GuardedAccessesOnly L s1 → GuardedAccessesOnly L s2 →
      GuardedAccessesOnly L (.seq s1 s2)

/-- A C expression together with its ordered observable side effects and its
value (`none` for a void expression). -/
structure CExpr where
  effects : List Nat
  value : Option Int
deriving DecidableEq, Repr

/-- The C comma operator: the left operand is evaluated for its effects, the
result is the right operand's value. -/
def commaE (a b : CExpr) : CExpr := ⟨a.effects ++ b.effects, b.value⟩

/-- A cast to `void`: effects kept, value discarded. -/
def voidCast (a : CExpr) : CExpr := ⟨a.effects, none⟩

/-- One item inside a GNU statement expression `({ ... })`: a `_Pragma`
(which is not a statement), a null statement `;`, an expression statement,
or a non-expression void statement such as `do { } while (0)`. -/
inductive SEItem
  | pragma
  | nullStmt
  | exprStmt (e : CExpr)
  | voidStmt (effects : List Nat)
deriving DecidableEq, Repr

/-- Effects contributed by one statement-expression item. -/
def SEItem.effects : SEItem → List Nat
  | .pragma => []
  | .nullStmt => []
  | .exprStmt e => e.effects
  | .voidStmt fx => fx

/-- Whether the item is a statement that can supply the value of the
enclosing statement expression (pragmas and null statements cannot). -/
def SEItem.counts : SEItem → Bool
  | .pragma => false
  | .nullStmt => false
  | .exprStmt _ => true
  | .voidStmt _ => true

/-- Ordered effects of executing a statement expression's items. -/
def seEffects : List SEItem → List Nat
  | [] => []
  | it :: its => it.effects ++ seEffects its

/-- Value of a GNU statement expression: the value of its last counting
statement when that statement is an expression statement, void otherwise. -/
def seValue (items : List SEItem) : Option Int :=
  match (items.filter SEItem.counts).getLast? with
  | some (.exprStmt e) => e.value
  | _ => none

/-- The `capability_unsafe(...)` expansion with analysis enabled, translated
from include/linux/compiler-capability-analysis.h:
`({ disable_capability_analysis(); __VA_ARGS__; enable_capability_analysis() })`
where `disable_capability_analysis()` is `__diag_push()` (a pragma) followed
by three `__diag_ignore_all` pragmas, and `enable_capability_analysis()` is
the `__diag_pop()` pragma; `body` stands for the statements of
`__VA_ARGS__;`. -/
def capability_unsafe (body : List SEItem) : List SEItem :=
  [.pragma, .nullStmt, .pragma, .pragma, .pragma, .nullStmt] ++ body ++
    [.pragma]

/-- The `capability_unsafe(...)` expansion with analysis disabled, where
`disable_capability_analysis()` and `enable_capability_analysis()` expand to
nothing: `({ ; __VA_ARGS__; })`. -/
def capability_unsafe_disabled (body : List SEItem) : List SEItem :=
  .nullStmt :: body

/-- C tokens, for stating what the annotation helpers expand to. -/
inductive Token
  | ident (s : String)
  | kwStruct
  | kwDo
  | kwWhile
  | kwVoid
  | lparen
  | rparen
  | lbrace
  | rbrace
  | semi
  | litZero
deriving DecidableEq, Repr

namespace DisabledConfig

/-!
Expansions of the annotation helpers in the `!WARN_CAPABILITY_ANALYSIS`
configuration, translated from the `#else` branch of
include/linux/compiler-capability-analysis.h.
-/

/-- Translated from `#define __cap_type(name)`: empty expansion. -/
def __cap_type (_name : List Token) : List Token := []

/-- Translated from `#define __acquires_cap(var)`: empty expansion. -/
def __acquires_cap (_var : List Token) : List Token := []

/-- Translated from `#define __acquires_shared_cap(var)`: empty expansion. -/
def __acquires_shared_cap (_var : List Token) : List Token := []

/-- Translated from `#define __try_acquires_cap(ret, var)`: empty
expansion. -/
def __try_acquires_cap (_ret _var : List Token) : List Token := []

/-- Translated from `#define __try_acquires_shared_cap(ret, var)`: empty
expansion. -/
def __try_acquires_shared_cap (_ret _var : List Token) : List Token := []

/-- Translated from `#define __releases_cap(var)`: empty expansion. -/
def __releases_cap (_var : List Token) : List Token := []

/-- Translated from `#define __releases_shared_cap(var)`: empty expansion. -/
def __releases_shared_cap (_var : List Token) : List Token := []

/-- Translated from `#define __asserts_cap(var)`: empty expansion. -/
def __asserts_cap (_var : List Token) : List Token := []

/-- Translated from `#define __asserts_shared_cap(var)`: empty expansion. -/
def __asserts_shared_cap (_var : List Token) : List Token := []

/-- Translated from `#define __returns_cap(var)`: empty expansion. -/
def __returns_cap (_var : List Token) : List Token := []

/-- Translated from `#define __var_guarded_by(var)`: empty expansion. -/
def __var_guarded_by (_var : List Token) : List Token := []

/-- Translated from `#define __ref_guarded_by(var)`: empty expansion. -/
def __ref_guarded_by (_var : List Token) : List Token := []

/-- Translated from `#define __excludes_cap(var)`: empty expansion. -/
def __excludes_cap (_var : List Token) : List Token := []

/-- Translated from `#define __requires_cap(var)`: empty expansion. -/
def __requires_cap (_var : List Token) : List Token := []

/-- Translated from `#define __requires_shared_cap(var)`: empty
expansion. -/
def __requires_shared_cap (_var : List Token) : List Token := []

/-- Translated from `#define __no_capability_analysis`: empty expansion. -/
def __no_capability_analysis : List Token := []

/-- Tokens of `do { } while (0)`. -/
def doWhileZero : List Token :=
  [.kwDo, .lbrace, .rbrace, .kwWhile, .lparen, .litZero, .rparen]

/-- Translated from `#define __acquire_cap(var) do { } while (0)`. -/
def __acquire_cap (_var : List Token) : List Token := doWhileZero

/-- Translated from `#define __acquire_shared_cap(var) do { } while (0)`. -/
def __acquire_shared_cap (_var : List Token) : List Token := doWhileZero

/-- Translated from `#define __release_cap(var) do { } while (0)`. -/
def __release_cap (_var : List Token) : List Token := doWhileZero

/-- Translated from `#define __release_shared_cap(var) do { } while (0)`. -/
def __release_shared_cap (_var : List Token) : List Token := doWhileZero

/-- Translated from `#define __try_acquire_cap(var, ret) (ret)`. -/
def __try_acquire_cap (_var ret : List Token) : List Token :=
  [.lparen] ++ ret ++ [.rparen]

/-- Translated from `#define __try_acquire_shared_cap(var, ret) (ret)`. -/
def __try_acquire_shared_cap (_var ret : List Token) : List Token :=
  [.lparen] ++ ret ++ [.rparen]

/-- Translated from
`#define __assert_cap(var) do { (void)(var); } while (0)`. -/
def __assert_cap (var : List Token) : List Token :=
  [.kwDo, .lbrace, .lparen, .kwVoid, .rparen, .lparen] ++ var ++
  [.rparen, .semi, .rbrace, .kwWhile, .lparen, .litZero, .rparen]

/-- Translated from
`#define __assert_shared_cap(var) do { (void)(var); } while (0)`. -/
def __assert_shared_cap (var : List Token) : List Token :=
  [.kwDo, .lbrace, .lparen, .kwVoid, .rparen, .lparen] ++ var ++
  [.rparen, .semi, .rbrace, .kwWhile, .lparen, .litZero, .rparen]

/-- Translated from `#define struct_with_capability(name) struct name`. -/
def struct_with_capability (name : String) : List Token :=
  [.kwStruct, .ident name]

end DisabledConfig

/-- Expression-level semantics of `__try_acquire_cap(var, ret)` in the
disabled configuration, translated from `(ret)`: `var` is not evaluated and
the result is the `ret` expression unchanged. -/
def tryAcquireCapValue (_var ret : CExpr) : CExpr := ret

/-- Statement-level semantics of `__assert_cap(var)` in the disabled
configuration, translated from `do { (void)(var); } while (0)`: `var` is
evaluated once for its effects and no value is produced. -/
def assertCapStmt (var : CExpr) : SEItem := .voidStmt var.effects

/-- Statement-level semantics of `__acquire_cap(var)` (and the other
`do { } while (0)` helpers) in the disabled configuration: nothing is
evaluated. -/
def acquireCapStmt (_var : CExpr) : SEItem := .voidStmt []

/-- One item of an annotated program in the disabled configuration. -/
inductive AnnItem
  | plain (it : SEItem)
  | attrAnn
  | acquireCapA (var : CExpr)
  | acquireSharedCapA (var : CExpr)
  | releaseCapA (var : CExpr)
  | releaseSharedCapA (var : CExpr)
  | assertCapA (var : CExpr)
  | assertSharedCapA (var : CExpr)

/-- Statements an annotated item expands to in the disabled configuration:
attribute annotations vanish; the helper calls become their `do`-statement
expansions. -/
def expandDisabled : AnnItem → List SEItem
  | .plain it => [it]
  | .attrAnn => []
  | .acquireCapA v => [acquireCapStmt v]
  | .acquireSharedCapA v => [acquireCapStmt v]
  | .releaseCapA v => [acquireCapStmt v]
  | .releaseSharedCapA v => [acquireCapStmt v]
  | .assertCapA v => [assertCapStmt v]
  | .assertSharedCapA v => [assertCapStmt v]

/-- The same item with the annotation removed altogether. -/
def eraseAnn : AnnItem → List SEItem
  | .plain it => [it]
  | _ => []

/-- Annotation arguments that are effect-free (the lock-address expressions
actually written in annotations). -/
def annArgsEffectFree : AnnItem → Prop
  | .assertCapA v => v.effects = []
  | .assertSharedCapA v => v.effects = []
  | _ => True

theorem setEnv_same (env : Env) (i : InstanceRef) (s : HeldState) :
    setEnv env i s i = s := by
  simp [setEnv]

theorem setEnv_other (env : Env) (i j : InstanceRef) (s : HeldState)
    (h : j ≠ i) : setEnv env i s j = env j := by
  simp [setEnv, h]

theorem join2_agree (e1 e2 : Env) (i : InstanceRef) (h : e1 i = e2 i) :
    join2 e1 e2 i = e1 i := by
  simp [join2, h]

theorem join2_disagree (e1 e2 : Env) (i : InstanceRef) (h : e1 i ≠ e2 i) :
    join2 e1 e2 i = .unknown := by
  simp [join2, h]

theorem join_foldl_agree (e : Env) (es : List Env) (i : InstanceRef)
    (s : HeldState) (he : e i = s) (hes : ∀ e' ∈ es, e' i = s) :
    (es.foldl join2 e) i = s := by
  induction es generalizing e with
  | nil => simpa using he
  | cons e' es ih =>
      apply ih
      · have h1 : e i = e' i := by
          rw [he, hes e' (by simp)]
        rw [join2_agree e e' i h1, he]
      · intro x hx
        exact hes x (by simp [hx])

/-- C1: for every pair of predecessor environments disagreeing on instance
`i`, `join` yields `Unknown` for `i` (never silently one side's value), and
when all predecessors agree on `i`, `join` propagates the agreed state. -/
theorem join_sound :
    (∀ (e1 e2 : Env) (i : InstanceRef),
        e1 i ≠ e2 i → join [e1, e2] i = .unknown) ∧
    (∀ (e : Env) (es : List Env) (i : InstanceRef) (s : HeldState),
        e i = s → (∀ e' ∈ es, e' i = s) → join (e :: es) i = s) := by
  constructor
  · intro e1 e2 i h
    show join2 e1 e2 i = .unknown
    exact join2_disagree e1 e2 i h
  · intro e es i s he hes
    exact join_foldl_agree e es i s he hes

/-- Witness for C1: `join` applied at concrete disagreeing and agreeing
environments. -/
theorem join_sound_witness :
    join [envAllExclusive, envAllNotHeld] 0 = .unknown ∧
    join [envAllExclusive, envAllExclusive] 0 = .heldExclusive := by
  refine ⟨join_sound.1 envAllExclusive envAllNotHeld 0 (by decide), ?_⟩
  exact join_sound.2 envAllExclusive [envAllExclusive] 0 .heldExclusive rfl
    (by intro e' he'; rw [List.mem_singleton.mp he']; rfl)

/-- C4: a Shared-mode requirement on instance `i` produces no violation when
the environment maps `i` to `HeldExclusive`: an exclusive holding satisfies a
shared requirement. -/
theorem applyRequires_shared_of_heldExclusive
    (env : Env) (i : InstanceRef) (loc : Nat)
    (h : env i = .heldExclusive) :
    applyRequires env (reqSharedOn i) loc = [] := by
  simp [applyRequires, reqSharedOn, h, satisfies]

/-- Witness for C4: the shared requirement on instance 0 is satisfied by the
everywhere-exclusive environment. -/
theorem applyRequires_shared_of_heldExclusive_witness :
    envAllExclusive 0 = .heldExclusive ∧
    applyRequires envAllExclusive (reqSharedOn 0) 0 = [] :=
  ⟨rfl, applyRequires_shared_of_heldExclusive envAllExclusive 0 0 rfl⟩

/-- C8: a contract excluding instance `i` makes `apply_requires` fail exactly
when the environment state for `i` is not `NotHeld`; the failure is reported
as the single held-capability violation of kind `Excluded`, which is one of
the reporter's kinds. -/
theorem applyRequires_excludes_characterization
    (env : Env) (i : InstanceRef) (loc : Nat) :
    (applyRequires env (excludesOn i) loc = [] ↔ env i = .notHeld) ∧
    (env i ≠ .notHeld →
      applyRequires env (excludesOn i) loc = [⟨loc, i, .excluded⟩]) ∧
    (∀ v ∈ applyRequires env (excludesOn i) loc,
      v.kind = .excluded ∧
      v.kind ∈ [ViolationKind.notHeld, .stillHeld, .excluded,
        .contractMismatch]) := by
  refine ⟨?_, ?_, ?_⟩
  · constructor
    · intro h
      by_contra hne
      simp [applyRequires, excludesOn, hne] at h
    · intro h
      simp [applyRequires, excludesOn, h]
  · intro h
    simp [applyRequires, excludesOn, h]
  · intro v hv
    by_cases h : env i = .notHeld
    · simp [applyRequires, excludesOn, h] at hv
    · simp [applyRequires, excludesOn, h] at hv
      simp [hv]

/-- Witness for C8: at an environment holding instance 0 exclusively, the
excludes check fails with a single `Excluded` violation; at the
everywhere-not-held environment it succeeds. -/
theorem applyRequires_excludes_characterization_witness :
    applyRequires envAllExclusive (excludesOn 0) 0 =
      [⟨0, 0, .excluded⟩] ∧
    applyRequires envAllNotHeld (excludesOn 0) 0 = [] :=
  ⟨(applyRequires_excludes_characterization envAllExclusive 0 0).2.1
      (by decide),
   (applyRequires_excludes_characterization envAllNotHeld 0 0).1.mpr rfl⟩

/-- C3: a guarded-member access is checked against the current local
environment: a read requires the guard held at least `Shared`, a write
requires it held `Exclusive`; a failing access produces a violation and the
environment passes through unchanged.  The check uses the environment at
the access itself (an acquire earlier in the same block is seen). -/
theorem access_checked_against_current_env :
    ∀ (env : Env) (g : InstanceRef) (w : Bool) (loc : Nat),
      (analyze (.access g w) loc env).env = env ∧
      ((analyze (.access g w) loc env).viols = [] ↔
        (if w then env g = .heldExclusive
         else env g = .heldShared ∨ env g = .heldExclusive)) ∧
      ((analyze (.access g w) loc env).viols = [] ∨
        (analyze (.access g w) loc env).viols = [⟨loc, g, .notHeld⟩]) ∧
      (analyze (.seq (.acquire g .exclusive) (.access g w)) loc env).viols
        = [] := by
  intro env g w loc
  refine ⟨rfl, ?_, ?_, ?_⟩
  · cases w <;> cases h : env g <;>
      simp [analyze, accessOk, satisfies, h]
  · by_cases h : accessOk (env g) w = true
    · left; simp [analyze, h]
    · right; simp [analyze, h]
  · cases w <;> simp [analyze, accessOk, satisfies, setEnv_same, acqState]

/-- C6: an assertion construct directly sets the local environment to held
for the asserted instance, produces no diagnostic whatever the prior state
(including `Unknown` and `NotHeld`), and a guarded access after the
assertion is accepted. -/
theorem assertCap_sets_held :
    ∀ (env : Env) (i : InstanceRef) (m : Mode) (loc : Nat) (w : Bool),
      (analyze (.assertCap i m) loc env).viols = [] ∧
      (analyze (.assertCap i m) loc env).env i = acqState m ∧
      (analyze (.seq (.assertCap i .exclusive) (.access i w)) loc env).viols
        = [] := by
  intro env i m loc w
  refine ⟨rfl, setEnv_same env i (acqState m), ?_⟩
  cases w <;> simp [analyze, accessOk, satisfies, setEnv_same, acqState]

/-- C7: a suppressed (unsafe) region is a pass-through: no statement inside
produces a violation whatever the environment, and the environment after the
region equals the environment before it; by contrast the same access outside
a suppressed region is flagged. -/
theorem unsafeRegion_passthrough :
    (∀ (env : Env) (body : Stmt) (loc : Nat),
        (analyze (.unsafeRegion body) loc env).env = env ∧
        (analyze (.unsafeRegion body) loc env).viols = []) ∧
    (analyze (.access 0 true) 0 envAllNotHeld).viols ≠ [] ∧
    (analyze (.unsafeRegion (.access 0 true)) 0 envAllNotHeld).viols = [] := by
  refine ⟨fun env body loc => ⟨rfl, rfl⟩, by decide, rfl⟩

/-- C2: a branch on a try-acquire's success-correlated return splits the
environment, applying the acquire effect to the true arm only (so the merged
state after an empty try-branch is `Unknown`, not the acquired state); the
guarded-use-inside-the-branch program produces zero violations, and moving
the guarded use outside the branch produces exactly one `NotHeld`
violation. -/
theorem ifTry_splits_environment :
    (∀ (env : Env) (i : InstanceRef) (m : Mode) (loc : Nat),
        env i ≠ acqState m →
        (analyze (.ifTry i m .skip .skip) loc env).env i = .unknown) ∧
    analyzeFunction emptyContract progGuardedInsideTry = [] ∧
    analyzeFunction emptyContract progGuardedOutsideTry
      = [⟨2, 0, .notHeld⟩] ∧
    (analyzeFunction emptyContract progGuardedOutsideTry).length = 1 ∧
    (∀ v ∈ analyzeFunction emptyContract progGuardedOutsideTry,
      v.kind = .notHeld) := by
  refine ⟨?_, by decide, by decide, by decide, ?_⟩
  · intro env i m loc h
    have hs : setEnv env i (acqState m) i = acqState m := setEnv_same env i _
    simp only [analyze, join2]
    rw [hs]
    simp [Ne.symm h]
  · intro v hv
    have : analyzeFunction emptyContract progGuardedOutsideTry
        = [⟨2, 0, .notHeld⟩] := by decide
    rw [this] at hv
    simp at hv
    rw [hv]

/-- Witness for C2: the environment-splitting fact applied at the concrete
everywhere-not-held environment. -/
theorem ifTry_splits_environment_witness :
    envAllNotHeld 0 ≠ acqState .exclusive ∧
    (analyze (.ifTry 0 .exclusive .skip .skip) 0 envAllNotHeld).env 0
      = .unknown :=
  ⟨by decide,
   ifTry_splits_environment.1 envAllNotHeld 0 .exclusive 0 (by decide)⟩

theorem analyze_guardedAccesses (L : InstanceRef) (s : Stmt)
    (h : GuardedAccessesOnly L s) :
    ∀ (loc : Nat) (env : Env), env L = .heldExclusive →
      (analyze s loc env).env = env ∧ (analyze s loc env).viols = [] := by
  induction h with
  | skip => intro loc env hL; exact ⟨rfl, rfl⟩
  | access w =>
      intro loc env hL
      cases w <;> simp [analyze, accessOk, satisfies, hL]
  | @seq s1 s2 h1 h2 ih1 ih2 =>
      intro loc env hL
      obtain ⟨he1, hv1⟩ := ih1 loc env hL
      obtain ⟨he2, hv2⟩ :=
        ih2 (analyze s1 loc env).next (analyze s1 loc env).env
          (by rw [he1]; exact hL)
      constructor
      · show (analyze s2 (analyze s1 loc env).next (analyze s1 loc env).env).env
          = env
        rw [he2, he1]
      · show (analyze s1 loc env).viols ++
          (analyze s2 (analyze s1 loc env).next (analyze s1 loc env).env).viols
          = []
        rw [hv1, hv2]
        rfl

theorem checkExit_of_expected (univ : List InstanceRef) (loc : Nat)
    (env : Env) (c : FunctionContract)
    (h : ∀ i ∈ univ, env i = expectedExit c i) :
    checkExit univ loc env c = [] := by
  induction univ with
  | nil => rfl
  | cons i is ih =>
      have hi : env i = expectedExit c i := h i (by simp)
      simp only [checkExit, List.filterMap_cons, hi, if_pos rfl]
      exact ih (fun j hj => h j (by simp [hj]))

/-- C5: a function with an empty contract whose body acquires `L`, performs
only accesses guarded by `L`, and then releases `L`, produces zero
diagnostics. -/
theorem balanced_acquire_release_no_diagnostics (L : InstanceRef) (mid : Stmt)
    (h : GuardedAccessesOnly L mid) :
    analyzeFunction emptyContract
      (.seq (.acquire L .exclusive) (.seq mid (.release L .exclusive)))
      = [] := by
  have hL1 : setEnv (entryEnv emptyContract) L (acqState .exclusive) L
      = .heldExclusive := setEnv_same _ L _
  obtain ⟨hme, hmv⟩ :=
    analyze_guardedAccesses L mid h (0 + 1)
      (setEnv (entryEnv emptyContract) L (acqState .exclusive)) hL1
  have hbody :
      analyze (.seq (.acquire L .exclusive)
          (.seq mid (.release L .exclusive))) 0 (entryEnv emptyContract)
        = ⟨setEnv (setEnv (entryEnv emptyContract) L (acqState .exclusive)) L
            .notHeld, [],
           (analyze mid (0 + 1)
             (setEnv (entryEnv emptyContract) L (acqState .exclusive))).next
             + 1⟩ := by
    simp only [analyze, hme, hmv, hL1, satisfies, if_pos, List.append_nil,
      List.nil_append]
  unfold analyzeFunction
  rw [hbody]
  simp only [List.nil_append]
  apply checkExit_of_expected
  intro i _
  show setEnv (setEnv (entryEnv emptyContract) L (acqState .exclusive)) L
      .notHeld i = expectedExit emptyContract i
  have hexp : expectedExit emptyContract i = .notHeld := rfl
  rw [hexp]
  by_cases hi : i = L
  · rw [hi, setEnv_same]
  · rw [setEnv_other _ _ _ _ hi, setEnv_other _ _ _ _ hi]
    rfl

/-- Witness for C5: the balanced pattern at instance 0 with one guarded
write and one guarded read between acquire and release. -/
theorem balanced_acquire_release_no_diagnostics_witness :
    analyzeFunction emptyContract
      (.seq (.acquire 0 .exclusive)
        (.seq (.seq (.access 0 true) (.access 0 false))
          (.release 0 .exclusive))) = [] :=
  balanced_acquire_release_no_diagnostics 0
    (.seq (.access 0 true) (.access 0 false))
    (GuardedAccessesOnly.seq (GuardedAccessesOnly.access true)
      (GuardedAccessesOnly.access false))

theorem seEffects_append (a b : List SEItem) :
    seEffects (a ++ b) = seEffects a ++ seEffects b := by
  induction a with
  | nil => rfl
  | cons it its ih => simp [seEffects, ih]

theorem capability_unsafe_filter_counts (body : List SEItem) :
    ( capability_unsafe body).filter SEItem.counts
      = body.filter SEItem.counts := by
  simp [ capability_unsafe, List.filter_append, SEItem.counts]

/-- C9: `capability_unsafe(e)` evaluates to the same value as `e`, with the
same effects in the same order, in both configurations; in particular the
patterns of `test_common_helpers` hold: a plain expression, a body with
embedded semicolons, a body with a top-level comma, and a void statement. -/
theorem capability_unsafe_value_preserving :
    (∀ body : List SEItem,
      seValue ( capability_unsafe body) = seValue body ∧
      seEffects ( capability_unsafe body) = seEffects body ∧
      seValue (capability_unsafe_disabled body) = seValue body ∧
      seEffects (capability_unsafe_disabled body) = seEffects body) ∧
    seValue ( capability_unsafe [.exprStmt ⟨[], some 3⟩]) = some 3 ∧
    seValue ( capability_unsafe
      [.exprStmt (voidCast ⟨[2], some 2⟩), .exprStmt ⟨[], some 3⟩,
       .nullStmt]) = some 3 ∧
    seValue ( capability_unsafe
      [.exprStmt (commaE (voidCast ⟨[2], some 2⟩) ⟨[], some 3⟩)])
      = some 3 ∧
    seValue ( capability_unsafe [.voidStmt []]) = none ∧
    seEffects ( capability_unsafe
      [.exprStmt (voidCast ⟨[2], some 2⟩), .exprStmt ⟨[], some 3⟩,
       .nullStmt]) = [2] := by
  refine ⟨?_, by decide, by decide, by decide, by decide, by decide⟩
  intro body
  refine ⟨?_, ?_, ?_, ?_⟩
  · unfold seValue
    rw [capability_unsafe_filter_counts]
  · unfold  capability_unsafe
    rw [seEffects_append, seEffects_append]
    simp [seEffects, SEItem.effects]
  · unfold seValue capability_unsafe_disabled
    rfl
  · rfl

theorem seEffects_bind_expand (items : List AnnItem)
    (h : ∀ it ∈ items, annArgsEffectFree it) :
    seEffects (items.flatMap expandDisabled)
      = seEffects (items.flatMap eraseAnn) := by
  induction items with
  | nil => rfl
  | cons it its ih =>
      have hit : annArgsEffectFree it := h it (by simp)
      have ihs := ih (fun j hj => h j (by simp [hj]))
      rw [List.flatMap_cons, List.flatMap_cons, seEffects_append,
        seEffects_append, ihs]
      cases it <;>
        simp_all [expandDisabled, eraseAnn, seEffects, SEItem.effects,
          acquireCapStmt, assertCapStmt, annArgsEffectFree]

/-- C10: in the `!WARN_CAPABILITY_ANALYSIS` configuration, every attribute
annotation expands to an empty token sequence; `__try_acquire_cap(var, ret)`
expands to `(ret)` (independent of `var`, and value- and effect-preserving);
`__assert_cap(var)` only evaluates `var`; `struct_with_capability(name)`
expands to plain `struct name`; and a program whose annotation arguments are
effect-free has the same effects as the program with all annotations
removed. -/
theorem disabled_config_noop :
    (∀ v : List Token,
      DisabledConfig.__cap_type v = [] ∧
      DisabledConfig.__acquires_cap v = [] ∧
      DisabledConfig.__acquires_shared_cap v = [] ∧
      DisabledConfig.__releases_cap v = [] ∧
      DisabledConfig.__releases_shared_cap v = [] ∧
      DisabledConfig.__asserts_cap v = [] ∧
      DisabledConfig.__asserts_shared_cap v = [] ∧
      DisabledConfig.__returns_cap v = [] ∧
      DisabledConfig.__var_guarded_by v = [] ∧
      DisabledConfig.__ref_guarded_by v = [] ∧
      DisabledConfig.__excludes_cap v = [] ∧
      DisabledConfig.__requires_cap v = [] ∧
      DisabledConfig.__requires_shared_cap v = []) ∧
    (∀ r v : List Token,
      DisabledConfig.__try_acquires_cap r v = [] ∧
      DisabledConfig.__try_acquires_shared_cap r v = []) ∧
    DisabledConfig.__no_capability_analysis = [] ∧
    (∀ (v v' ret : List Token),
      DisabledConfig.__try_acquire_cap v ret
        = DisabledConfig.__try_acquire_cap v' ret) ∧
    (∀ (var ret : CExpr),
      (tryAcquireCapValue var ret).value = ret.value ∧
      (tryAcquireCapValue var ret).effects = ret.effects) ∧
    (∀ var : CExpr,
      seEffects [assertCapStmt var] = var.effects ∧
      seValue [assertCapStmt var] = none) ∧
    (∀ var : CExpr, seEffects [acquireCapStmt var] = []) ∧
    (∀ name : String,
      DisabledConfig.struct_with_capability name
        = [Token.kwStruct, Token.ident name]) ∧
    (∀ (items : List AnnItem), (∀ it ∈ items, annArgsEffectFree it) →
      seEffects (items.flatMap expandDisabled)
        = seEffects (items.flatMap eraseAnn)) := by
  refine ⟨fun v => ⟨rfl, rfl, rfl, rfl, rfl, rfl, rfl, rfl, rfl, rfl, rfl,
      rfl, rfl⟩,
    fun r v => ⟨rfl, rfl⟩, rfl, fun v v' ret => rfl,
    fun var ret => ⟨rfl, rfl⟩, fun var => ⟨?_, rfl⟩, fun var => ?_,
    fun name => rfl, seEffects_bind_expand⟩
  · simp [seEffects, assertCapStmt, SEItem.effects]
  · rfl

/-- Witness for C10: the effect-preservation conjunct applied to a concrete
annotated program: a plain statement, an attribute annotation, an acquire
helper and an assert helper with an effect-free lock expression. -/
theorem disabled_config_noop_witness :
    seEffects
      ([AnnItem.plain (.exprStmt ⟨[7], some 1⟩), .attrAnn,
        .acquireCapA ⟨[], none⟩, .assertCapA ⟨[], none⟩].flatMap
        expandDisabled)
      = seEffects
        ([AnnItem.plain (.exprStmt ⟨[7], some 1⟩), .attrAnn,
          .acquireCapA ⟨[], none⟩, .assertCapA ⟨[], none⟩].flatMap eraseAnn) :=
  disabled_config_noop.2.2.2.2.2.2.2.2
    [AnnItem.plain (.exprStmt ⟨[7], some 1⟩), .attrAnn,
      .acquireCapA ⟨[], none⟩, .assertCapA ⟨[], none⟩]
    (by
      intro it hit
      fin_cases hit <;> simp [annArgsEffectFree])
